import Mathlib

/-!
Verification development for the Adrift relay server
(`src/server/src/server.ts`).

The relay multiplexes HTTP requests and WebSocket sessions over one binary
channel.  This file gives a shallow embedding of the server code: byte
buffers are `List Nat`, JavaScript values produced by `JSON.parse` are an
inductive `JSVal`, JavaScript exceptions are modelled with `Except JSError`,
and the external collaborators (the bare fetch implementation and the
WebSocket client library) appear as oracle parameters or as explicit
command/event interfaces.
-/

namespace Adrift

/-! ## JavaScript values and errors -/

/-- A JavaScript number, modelled by the literal components it was parsed
or constructed from: sign, integer-part value, fraction-digits value,
fraction length, decimal exponent.  The relay performs no numeric
arithmetic, so this component view is faithful for everything the relay
does with numbers (truthiness and serialization); IEEE-754 rounding never
becomes observable. -/
structure JSNum where
  neg : Bool
  ip : Nat
  fv : Nat
  fl : Nat
  ex : Int
  deriving Repr, DecidableEq

/-- The number denoted by a plain natural literal. -/
def JSNum.ofNat (n : Nat) : JSNum := ⟨false, n, 0, 0, 0⟩

/-- A JavaScript number equals zero exactly when all its digits are zero. -/
def JSNum.isZero (x : JSNum) : Bool := x.ip = 0 && x.fv = 0

/-- JavaScript values as they arise from `JSON.parse` and object literals in
the server.  `undefined` is JavaScript `undefined` (distinct from JSON `null`). -/
inductive JSVal where
  | null
  | undefined
  | bool (b : Bool)
  | num (n : JSNum)
  | str (s : String)
  | arr (elems : List JSVal)
  | obj (fields : List (String × JSVal))
  deriving Repr

/-- Kinds of JavaScript exceptions the server distinguishes with
`instanceof` checks. -/
inductive ErrKind where
  | rangeError
  | syntaxError
  | typeError
  | generic
  deriving Repr, DecidableEq

/-- A thrown JavaScript exception (engine-specific message text is
informative only). -/
structure JSError where
  kind : ErrKind
  message : String
  deriving Repr, DecidableEq

/-- Association-list lookup with string keys, first match wins. -/
def alookupStr {α : Type} : List (String × α) → String → Option α
  | [], _ => none
  | (k, v) :: l, key => if k = key then some v else alookupStr l key

/-- Association-list lookup with numeric keys (models indexing a JS object
keyed by sequence or socket ids). -/
def alookup {α : Type} : List (Nat × α) → Nat → Option α
  | [], _ => none
  | (k, v) :: l, key => if k = key then some v else alookup l key

/-- Association-list update: overwrite the value at an existing key, or
append a fresh binding (models JS object property assignment). -/
def aset {α : Type} : List (Nat × α) → Nat → α → List (Nat × α)
  | [], key, v => [(key, v)]
  | (k, w) :: l, key, v =>
    if k = key then (k, v) :: l else (k, w) :: aset l key v

/-- Property access `v[field]` as used for `payload.url`: `null` and
`undefined` raise a `TypeError`, objects yield the field or `undefined`,
every other value yields `undefined` (no relay code reads a built-in
property such as `length` through this path). -/
def jsGet (v : JSVal) (field : String) : Except JSError JSVal :=
  match v with
  | .null => .error ⟨.typeError, "Cannot read properties of null"⟩
  | .undefined => .error ⟨.typeError, "Cannot read properties of undefined"⟩
  | .obj fields => .ok ((alookupStr fields field).getD .undefined)
  | _ => .ok .undefined

/-- JavaScript truthiness, used by `if (!reqPayload) return` and
`if (!socket) return` in `onMsg`. -/
def jsTruthy : JSVal → Bool
  | .null => false
  | .undefined => false
  | .bool b => b
  | .num n => !n.isZero
  | .str s => decide (s ≠ "")
  | .arr _ => true
  | .obj _ => true

/-! ## UTF-8 decoding and encoding

`TextDecoder` with default options never throws: invalid sequences become
U+FFFD replacement characters.  The decoder below follows the WHATWG UTF-8
decode algorithm (boundary-restricted continuation bytes, invalid bytes
replaced, invalid continuation bytes reconsumed in the initial state). -/

/-- The U+FFFD replacement character. -/
def fffd : Char := Char.ofNat 0xFFFD

/-- Classification of a byte in the decoder's initial state. -/
inductive Utf8Start where
  | ascii (c : Char)
  | cont (needed cp lower upper : Nat)
  | invalid

/-- Classify a leading byte per the WHATWG UTF-8 decoder. -/
def classifyStart (b : Nat) : Utf8Start :=
  if b ≤ 0x7F then .ascii (Char.ofNat b)
  else if 0xC2 ≤ b ∧ b ≤ 0xDF then .cont 1 (b - 0xC0) 0x80 0xBF
  else if b = 0xE0 then .cont 2 0 0xA0 0xBF
  else if b = 0xED then .cont 2 0xD 0x80 0x9F
  else if 0xE1 ≤ b ∧ b ≤ 0xEF then .cont 2 (b - 0xE0) 0x80 0xBF
  else if b = 0xF0 then .cont 3 0 0x90 0xBF
  else if 0xF1 ≤ b ∧ b ≤ 0xF3 then .cont 3 (b - 0xF0) 0x80 0xBF
  else if b = 0xF4 then .cont 3 4 0x80 0x8F
  else .invalid

/-- Core UTF-8 replacement decoder.  The `Option` state holds
`(needed, cp, lower, upper)` while inside a multi-byte sequence.  The
boolean accumulator records whether any replacement happened, so validity
of the input can be read off the result. -/
def utf8Go : List Nat → Option (Nat × Nat × Nat × Nat) → List Char → Bool →
    List Char × Bool
  | [], none, acc, err => (acc.reverse, err)
  | [], some _, acc, _ => ((fffd :: acc).reverse, true)
  | b :: bs, none, acc, err =>
    match classifyStart b with
    | .ascii c => utf8Go bs none (c :: acc) err
    | .cont needed cp lo hi => utf8Go bs (some (needed, cp, lo, hi)) acc err
    | .invalid => utf8Go bs none (fffd :: acc) true
  | b :: bs, some (needed, cp, lo, hi), acc, err =>
    if lo ≤ b ∧ b ≤ hi then
      let cp2 := cp * 64 + (b - 0x80)
      if needed = 1 then utf8Go bs none (Char.ofNat cp2 :: acc) err
      else utf8Go bs (some (needed - 1, cp2, 0x80, 0xBF)) acc err
    else
      match classifyStart b with
      | .ascii c => utf8Go bs none (c :: fffd :: acc) true
      | .cont n2 c2 l2 h2 => utf8Go bs (some (n2, c2, l2, h2)) (fffd :: acc) true
      | .invalid => utf8Go bs none (fffd :: fffd :: acc) true

/-- Decode bytes to text plus a flag telling whether any replacement was
necessary. -/
def utf8DecodeFull (bs : List Nat) : String × Bool :=
  let r := utf8Go bs none [] false
  (String.mk r.1, r.2)

/-- The string produced by `new TextDecoder().decode(bytes)`. -/
def textDecode (bs : List Nat) : String := (utf8DecodeFull bs).1

/-- A byte list is valid UTF-8 exactly when replacement decoding required
no replacement. -/
def validUtf8 (bs : List Nat) : Bool := !(utf8DecodeFull bs).2

/-- UTF-8 encoding of one Unicode scalar value. -/
def utf8EncodeChar (c : Char) : List Nat :=
  let n := c.toNat
  if n < 0x80 then [n]
  else if n < 0x800 then [0xC0 + n / 64, 0x80 + n % 64]
  else if n < 0x10000 then
    [0xE0 + n / 4096, 0x80 + (n / 64) % 64, 0x80 + n % 64]
  else
    [0xF0 + n / 262144, 0x80 + (n / 4096) % 64, 0x80 + (n / 64) % 64,
     0x80 + n % 64]

/-- The bytes produced by `new TextEncoder().encode(s)`. -/
def utf8Encode (s : String) : List Nat := (s.data.map utf8EncodeChar).flatten

/-- JavaScript `String.prototype.length`: number of UTF-16 code units. -/
def jsLength (s : String) : Nat :=
  (s.data.map (fun c => if c.toNat ≥ 0x10000 then 2 else 1)).sum

/-! ## JSON parsing (the behaviour of `JSON.parse`)

A fuel-indexed recursive-descent parser for RFC 8259 JSON.  `JSON.parse`
accepts exactly this grammar and throws only `SyntaxError`; duplicate
object keys keep the last value.  One modelling note: a `\u` escape
denoting a lone UTF-16 surrogate produces a lone-surrogate JavaScript
string, which a Lean `String` cannot hold; the model maps it to U+FFFD.
No relay code path depends on lone surrogates. -/

/-- Skip JSON insignificant whitespace. -/
def skipWs : List Char → List Char
  | [] => []
  | c :: cs =>
    if c = ' ' ∨ c = Char.ofNat 9 ∨ c = Char.ofNat 10 ∨ c = Char.ofNat 13 then
      skipWs cs
    else c :: cs

/-- Value of a hexadecimal digit character. -/
def hexVal (c : Char) : Option Nat :=
  if '0' ≤ c ∧ c ≤ '9' then some (c.toNat - 48)
  else if 'a' ≤ c ∧ c ≤ 'f' then some (c.toNat - 87)
  else if 'A' ≤ c ∧ c ≤ 'F' then some (c.toNat - 55)
  else none

/-- Read four hex digits (the payload of a `\u` escape). -/
def parseHex4 : List Char → Option (Nat × List Char)
  | a :: b :: c :: d :: r =>
    match hexVal a, hexVal b, hexVal c, hexVal d with
    | some x, some y, some z, some w =>
      some (((x * 16 + y) * 16 + z) * 16 + w, r)
    | _, _, _, _ => none
  | _ => none

/-- Single-character JSON escapes. -/
def escChar (e : Char) : Option Char :=
  if e = '"' then some '"'
  else if e = '\\' then some '\\'
  else if e = '/' then some '/'
  else if e = 'b' then some (Char.ofNat 8)
  else if e = 'f' then some (Char.ofNat 12)
  else if e = 'n' then some (Char.ofNat 10)
  else if e = 'r' then some (Char.ofNat 13)
  else if e = 't' then some (Char.ofNat 9)
  else none

/-- Parse the body of a JSON string after the opening quote. -/
def parseJStr : Nat → List Char → List Char → Option (String × List Char)
  | 0, _, _ => none
  | _ + 1, [], _ => none
  | f + 1, c :: r, acc =>
    if c = '"' then some (String.mk acc.reverse, r)
    else if c = '\\' then
      match r with
      | [] => none
      | e :: r2 =>
        if e = 'u' then
          match parseHex4 r2 with
          | none => none
          | some (n, r3) =>
            if 0xD800 ≤ n ∧ n ≤ 0xDBFF then
              match r3 with
              | '\\' :: 'u' :: r4 =>
                match parseHex4 r4 with
                | some (m, r5) =>
                  if 0xDC00 ≤ m ∧ m ≤ 0xDFFF then
                    parseJStr f r5
                      (Char.ofNat (0x10000 + (n - 0xD800) * 0x400 + (m - 0xDC00))
                        :: acc)
                  else parseJStr f r3 (fffd :: acc)
                | none => parseJStr f r3 (fffd :: acc)
              | _ => parseJStr f r3 (fffd :: acc)
            else if 0xDC00 ≤ n ∧ n ≤ 0xDFFF then parseJStr f r3 (fffd :: acc)
            else parseJStr f r3 (Char.ofNat n :: acc)
        else
          match escChar e with
          | some ce => parseJStr f r2 (ce :: acc)
          | none => none
    else if c.toNat < 0x20 then none
    else parseJStr f r (c :: acc)

/-- Split off a maximal run of decimal digits. -/
def spanDigits (cs : List Char) : List Char × List Char :=
  cs.span Char.isDigit

/-- Numeric value of a digit run. -/
def digitsVal (ds : List Char) : Nat :=
  ds.foldl (fun a c => a * 10 + (c.toNat - 48)) 0

/-- Parse an optional JSON fraction part, returning its value, its digit
count and the rest of the input. -/
def parseFracPart : List Char → Option (Nat × Nat × List Char)
  | [] => some (0, 0, [])
  | c :: r =>
    if c = '.' then
      match spanDigits r with
      | ([], _) => none
      | (ds, rest) => some (digitsVal ds, ds.length, rest)
    else some (0, 0, c :: r)

/-- Parse an optional JSON exponent part. -/
def parseExpPart : List Char → Option (Int × List Char)
  | [] => some (0, [])
  | c :: r =>
    if c = 'e' ∨ c = 'E' then
      let p : Int × List Char :=
        match r with
        | d :: rr =>
          if d = '+' then (1, rr) else if d = '-' then (-1, rr) else (1, r)
        | [] => (1, [])
      match spanDigits p.2 with
      | ([], _) => none
      | (ds, rest) => some (p.1 * (digitsVal ds : Int), rest)
    else some (0, c :: r)

/-- Parse a JSON number (RFC 8259: no leading zeros, no bare dot). -/
def parseNumber (cs : List Char) : Option (JSNum × List Char) :=
  let p : Bool × List Char :=
    match cs with
    | c :: r => if c = '-' then (true, r) else (false, cs)
    | [] => (false, [])
  match p.2 with
  | [] => none
  | c :: r =>
    if c = '0' then
      match parseFracPart r with
      | none => none
      | some (fv, fl, r2) =>
        match parseExpPart r2 with
        | none => none
        | some (ex, r3) => some (⟨p.1, 0, fv, fl, ex⟩, r3)
    else if c.isDigit then
      match spanDigits (c :: r) with
      | (ds, r1) =>
        match parseFracPart r1 with
        | none => none
        | some (fv, fl, r2) =>
          match parseExpPart r2 with
          | none => none
          | some (ex, r3) => some (⟨p.1, digitsVal ds, fv, fl, ex⟩, r3)
    else none

/-- Insert a field into an object under construction: a duplicate key
overwrites in place, as `JSON.parse` keeps the last value. -/
def objSet : List (String × JSVal) → String → JSVal → List (String × JSVal)
  | [], k, v => [(k, v)]
  | (k0, v0) :: fs, k, v =>
    if k0 = k then (k0, v) :: fs else (k0, v0) :: objSet fs k v

mutual

/-- Parse one JSON value.  The fuel only bounds recursion; `jsonParse`
supplies enough for any input. -/
def parseValue : Nat → List Char → Option (JSVal × List Char)
  | 0, _ => none
  | f + 1, cs =>
    match skipWs cs with
    | [] => none
    | c :: r =>
      if c = '"' then
        match parseJStr (r.length + 1) r [] with
        | some (s, rest) => some (.str s, rest)
        | none => none
      else if c = 'n' then
        match r with
        | 'u' :: 'l' :: 'l' :: rest => some (.null, rest)
        | _ => none
      else if c = 't' then
        match r with
        | 'r' :: 'u' :: 'e' :: rest => some (.bool true, rest)
        | _ => none
      else if c = 'f' then
        match r with
        | 'a' :: 'l' :: 's' :: 'e' :: rest => some (.bool false, rest)
        | _ => none
      else if c = '[' then
        match skipWs r with
        | ']' :: rest => some (.arr [], rest)
        | r2 =>
          match parseItems f r2 [] with
          | some (xs, rest) => some (.arr xs, rest)
          | none => none
      else if c = '\x7b' then
        match skipWs r with
        | '\x7d' :: rest => some (.obj [], rest)
        | r2 =>
          match parseFields f r2 [] with
          | some (fs, rest) => some (.obj fs, rest)
          | none => none
      else if c = '-' ∨ c.isDigit then
        match parseNumber (c :: r) with
        | some (q, rest) => some (.num q, rest)
        | none => none
      else none

/-- Parse the remaining elements of a non-empty array. -/
def parseItems : Nat → List Char → List JSVal → Option (List JSVal × List Char)
  | 0, _, _ => none
  | f + 1, cs, acc =>
    match parseValue f cs with
    | none => none
    | some (v, rest) =>
      match skipWs rest with
      | ',' :: r2 => parseItems f r2 (v :: acc)
      | ']' :: r2 => some ((v :: acc).reverse, r2)
      | _ => none

/-- Parse the remaining members of a non-empty object. -/
def parseFields : Nat → List Char → List (String × JSVal) →
    Option (List (String × JSVal) × List Char)
  | 0, _, _ => none
  | f + 1, cs, acc =>
    match skipWs cs with
    | '"' :: r =>
      match parseJStr (r.length + 1) r [] with
      | none => none
      | some (k, r2) =>
        match skipWs r2 with
        | ':' :: r3 =>
          match parseValue f r3 with
          | none => none
          | some (v, r4) =>
            match skipWs r4 with
            | ',' :: r5 => parseFields f r5 (objSet acc k v)
            | '\x7d' :: r5 => some (objSet acc k v, r5)
            | _ => none
        | _ => none
    | _ => none

end

/-- The behaviour of `JSON.parse`: parse one value, allow trailing
whitespace only, otherwise fail. -/
def jsonParse (s : String) : Option JSVal :=
  match parseValue (2 * s.data.length + 2) s.data with
  | none => none
  | some (v, rest) =>
    match skipWs rest with
    | [] => some v
    | _ => none

/-- The exception-level view of `JSON.parse`: the only exception it can
throw is a `SyntaxError`. -/
def jsonParseE (s : String) : Except JSError JSVal :=
  match jsonParse s with
  | some v => .ok v
  | none => .error ⟨.syntaxError, "Unexpected token in JSON"⟩

/-! ## JSON serialization (the behaviour of `JSON.stringify`) -/

/-- Lower-case hex digit. -/
def hexDigit (n : Nat) : Char :=
  if n < 10 then Char.ofNat (48 + n) else Char.ofNat (87 + n)

/-- Escape one character as `JSON.stringify` does inside strings. -/
def escapeJChar (c : Char) : String :=
  if c = '"' then "\\\""
  else if c = '\\' then "\\\\"
  else if c = Char.ofNat 8 then "\\b"
  else if c = Char.ofNat 9 then "\\t"
  else if c = Char.ofNat 10 then "\\n"
  else if c = Char.ofNat 12 then "\\f"
  else if c = Char.ofNat 13 then "\\r"
  else if c.toNat < 0x20 then
    String.mk ['\\', 'u', '0', '0', hexDigit (c.toNat / 16), hexDigit (c.toNat % 16)]
  else String.mk [c]

/-- Quote and escape a string for JSON output. -/
def quoteJStr (s : String) : String :=
  "\"" ++ String.join (s.data.map escapeJChar) ++ "\""

/-- Left-pad with zero digits. -/
def padLeftZeros (s : String) (n : Nat) : String :=
  String.mk (List.replicate (n - s.length) '0') ++ s

/-- Number formatting.  Every number the relay itself serializes is a
plain integer, where this matches JavaScript exactly (including `-0`
printing as `0`); shortest-round-trip formatting of other doubles (only
reachable through oracle-supplied error bodies) is abstracted to a
components spelling. -/
def jsNumToString (x : JSNum) : String :=
  if x.fl = 0 ∧ x.ex = 0 then
    (if x.neg ∧ x.ip ≠ 0 then "-" else "") ++ toString x.ip
  else
    (if x.neg then "-" else "") ++ toString x.ip ++
      (if x.fl = 0 then "" else "." ++ padLeftZeros (toString x.fv) x.fl) ++
      (if x.ex = 0 then "" else "e" ++ toString x.ex)

/-- Join with commas. -/
def commaJoin : List String → String
  | [] => ""
  | [s] => s
  | s :: rest => s ++ "," ++ commaJoin rest

mutual

/-- The behaviour of `JSON.stringify` on the values the relay serializes:
object members with `undefined` values are omitted, `undefined` array
elements serialize as `null`. -/
def jsonStringify : JSVal → String
  | .null => "null"
  | .undefined => "null"
  | .bool true => "true"
  | .bool false => "false"
  | .num n => jsNumToString n
  | .str s => quoteJStr s
  | .arr xs => "[" ++ commaJoin (stringifyItems xs) ++ "]"
  | .obj fs => "\x7b" ++ commaJoin (stringifyFields fs) ++ "\x7d"

/-- Serialize array elements. -/
def stringifyItems : List JSVal → List String
  | [] => []
  | x :: xs => jsonStringify x :: stringifyItems xs

/-- Serialize object members, omitting `undefined` values. -/
def stringifyFields : List (String × JSVal) → List String
  | [] => []
  | (k, v) :: fs =>
    match v with
    | .undefined => stringifyFields fs
    | _ => (quoteJStr k ++ ":" ++ jsonStringify v) :: stringifyFields fs

end

/-! ## Protocol operation codes

Modelled from the spec: the operation-code enumerations of the `protocol`
package (its source is not under `src/`).  The spec fixes the two sets of
codes but not their numeric values; distinct byte values are chosen here,
and no claim depends on the particular numbers. -/

namespace C2SRequestTypes

def HTTPRequest : Nat := 0

def WSOpen : Nat := 1

def WSSendText : Nat := 2

def WSSendBinary : Nat := 3

def WSClose : Nat := 4

end C2SRequestTypes

namespace S2CRequestTypes

def HTTPResponseStart : Nat := 0

def HTTPResponseChunk : Nat := 1

def HTTPResponseEnd : Nat := 2

def WSOpen : Nat := 3

def WSClose : Nat := 4

def WSDataText : Nat := 5

def WSDataBinary : Nat := 6

end S2CRequestTypes

/-! ## Frame codec -/

/-- The two bytes a `DataView.setUint16` write stores (big-endian, value
taken modulo 2^16). -/
def u16be (n : Nat) : List Nat := [n / 256 % 256, n % 256]

/-- The wire layout shared by `_sendJSONRes`, `sendHTTPResponseChunk`,
`_sendSimpleRes`, `sendWSText` and `sendWSBinary`: a 2-byte big-endian
sequence id, a 1-byte operation code, then the payload bytes. -/
def encodeFrame (seq op : Nat) (payload : List Nat) : List Nat :=
  u16be seq ++ [op % 256] ++ payload

/-- `DataView.getUint16` (big-endian default): reads two bytes or throws a
`RangeError` when the buffer is too short. -/
def dvGetUint16 (msg : List Nat) (i : Nat) : Except JSError Nat :=
  if i + 2 ≤ msg.length then
    .ok (256 * (msg.getD i 0 % 256) + msg.getD (i + 1) 0 % 256)
  else .error ⟨.rangeError, "Offset is outside the bounds of the DataView"⟩

/-- `DataView.getUint8`: reads one byte or throws a `RangeError`. -/
def dvGetUint8 (msg : List Nat) (i : Nat) : Except JSError Nat :=
  if i + 1 ≤ msg.length then .ok (msg.getD i 0 % 256)
  else .error ⟨.rangeError, "Offset is outside the bounds of the DataView"⟩

/-- The decoded frame header of `AdriftServer.parseMsgInit`. -/
structure MsgInit where
  cursor : Nat
  seq : Nat
  op : Nat
  deriving Repr, DecidableEq

/-- AdriftServer.parseMsgInit: read the 16-bit sequence id and the 8-bit
operation code, leaving the cursor at 3.  A `RangeError` (malformed
message) is caught and turned into `none`; any other exception would be
rethrown. -/
def parseMsgInit (msg : List Nat) : Except JSError (Option MsgInit) :=
  match dvGetUint16 msg 0 with
  | .error e => if e.kind = .rangeError then .ok none else .error e
  | .ok seq =>
    match dvGetUint8 msg 2 with
    | .error e => if e.kind = .rangeError then .ok none else .error e
    | .ok op => .ok (some ⟨3, seq, op⟩)

/-- AdriftServer.tryParseJSONPayload: UTF-8-decode (with replacement, as
`TextDecoder` never throws) and `JSON.parse` the payload; a `SyntaxError`
is caught and turned into `none`; any other exception would be
rethrown. -/
def tryParseJSONPayload (payloadRaw : List Nat) : Except JSError (Option JSVal) :=
  match jsonParseE (textDecode payloadRaw) with
  | .ok v => .ok (some v)
  | .error e => if e.kind = .syntaxError then .ok none else .error e

/-! ## The HTTP exchange -/

/-- Modelled from the spec: the `BareError` of `src/server/src/http.ts`
(not under `src/`), a controlled fetch failure carrying a structured HTTP
status and a JSON error body. -/
structure BareError where
  status : Nat
  body : JSVal

/-- Models the Node.js `http.STATUS_CODES` table (external collaborator);
representative entries suffice, since no claim depends on the reason
phrases. -/
def STATUS_CODES (n : Nat) : Option String :=
  if n = 200 then some "OK"
  else if n = 403 then some "Forbidden"
  else if n = 404 then some "Not Found"
  else if n = 500 then some "Internal Server Error"
  else none

/-- The `HTTPResponsePayload` of the `protocol` package: status, status
text and headers of a response start frame. -/
structure HTTPResponsePayload where
  status : Nat
  statusText : String
  headers : List (String × List String)

/-- One chunk yielded by the async-iterable response body.  The success
path iterates an `IncomingMessage`, which yields Buffers; the failure path
iterates `Readable.from(string)`, which by Node semantics yields the whole
string as one single chunk (strings are deliberately not iterated). -/
inductive BodyChunk where
  | bytes (bs : List Nat)
  | str (s : String)

/-- The pair `handleHTTPRequest` resolves with: start-frame payload plus
the async-iterable body. -/
structure HTTPResponse where
  payload : HTTPResponsePayload
  body : List BodyChunk

/-- bareErrorToResponse from `server.ts`: synthesize a response from a
controlled failure.  Its body is `Readable.from(JSON.stringify(e.body))`,
hence exactly one string chunk. -/
def bareErrorToResponse (e : BareError) : HTTPResponse :=
  { payload := {
      status := e.status,
      statusText := (STATUS_CODES e.status).getD "",
      headers := [] },
    body := [.str (jsonStringify e.body)] }

/-- The fields of a Node `http.IncomingMessage` the relay reads, plus the
Buffer chunks its async iteration yields (external collaborator). -/
structure IncomingMsg where
  statusCode : Option Nat
  statusMessage : Option String
  headersDistinct : List (String × Option (List String))
  bodyChunks : List (List Nat)

/-- A JavaScript value thrown by the fetch step: a `BareError`, another
`Error` instance (with name, message and optional stack), or a non-`Error`
value, represented by its string conversion together with the stack of the
fresh `Error` the handler then allocates (both engine-supplied data). -/
inductive ThrownVal where
  | bare (e : BareError)
  | err (name message : String) (stack : Option String)
  | other (strVal : String) (freshStack : Option String)

/-- Modelled from the spec: one invocation of the external fetch
collaborator, `bareFetch(payload, signal, new URL(payload.remote),
options)`, whose source (`src/server/src/http.ts`) is not under `src/`.
The whole expression sits inside the `try` of `handleHTTPRequest`, so its
observable behaviour there is either an `IncomingMessage` or a thrown
value; theorems quantify over this outcome. -/
inductive FetchOutcome where
  | success (resp : IncomingMsg)
  | failure (t : ThrownVal)

/-- JavaScript `x || d` for an optional number (`0` and `undefined` are
falsy). -/
def jsOrNat (o : Option Nat) (d : Nat) : Nat :=
  match o with
  | some n => if n = 0 then d else n
  | none => d

/-- JavaScript `x || d` for an optional string (`""` and `undefined` are
falsy). -/
def jsOrStr (o : Option String) (d : String) : String :=
  match o with
  | some s => if s = "" then d else s
  | none => d

/-! ## Server state -/

/-- The mutable state of an `AdriftServer`: the sequence-to-socket
registry (`this.sockets`), the sequence id captured by each created
socket's event-handler closures, the listeners currently registered on the
`close` event of `this.events`, and allocation counters giving fresh
listener and socket identities. -/
structure ServerState where
  sockets : List (Nat × Nat)
  wsHandlers : List (Nat × Nat)
  closeListeners : List Nat
  nextListener : Nat
  nextSocket : Nat
  deriving Repr, DecidableEq

/-- A freshly constructed `AdriftServer`. -/
def initialState : ServerState := ⟨[], [], [], 0, 0⟩

/-- Calls the relay makes into the external WebSocket library. -/
inductive SockCmd where
  | connect (sid : Nat) (url : JSVal)
  | sendText (sid : Nat) (text : String)
  | sendBinary (sid : Nat) (data : List Nat)
  | close (sid : Nat)

/-- AdriftServer.handleHTTPRequest: register a cancellation hook on the
channel-close event, run the fetch step, and translate its outcome.  On a
`BareError` the code returns the synthesized response without removing the
hook (the early return skips `events.off`); on success, and before any
other rethrow, the hook is removed.  The request payload itself only feeds
the fetch collaborator, which is folded into `outcome`. -/
def handleHTTPRequest (outcome : FetchOutcome) (st : ServerState) :
    ServerState × Except ThrownVal HTTPResponse :=
  let lid := st.nextListener
  let st1 : ServerState :=
    { st with closeListeners := st.closeListeners ++ [lid], nextListener := lid + 1 }
  match outcome with
  | .failure (.bare e) => (st1, .ok (bareErrorToResponse e))
  | .failure t =>
    ({ st1 with closeListeners := st1.closeListeners.erase lid }, .error t)
  | .success resp =>
    ({ st1 with closeListeners := st1.closeListeners.erase lid },
      .ok {
        payload := {
          status := jsOrNat resp.statusCode 500,
          statusText := jsOrStr resp.statusMessage "",
          headers := resp.headersDistinct.filterMap
            (fun kv => match kv.2 with
              | some v => some (kv.1, v)
              | none => none) },
        body := resp.bodyChunks.map .bytes })

/-! ## Outbound frames -/

/-- AdriftServer._sendJSONRes: serialize, UTF-8-encode and frame a JSON
payload. -/
def sendJSONRes (seq op : Nat) (payload : JSVal) : List Nat :=
  encodeFrame seq op (utf8Encode (jsonStringify payload))

/-- The JSON value of an `HTTPResponsePayload` object literal, in the
field order of the source. -/
def respPayloadToJSVal (p : HTTPResponsePayload) : JSVal :=
  .obj [("status", .num (.ofNat p.status)),
        ("statusText", .str p.statusText),
        ("headers", .obj (p.headers.map (fun kv => (kv.1, .arr (kv.2.map .str)))))]

/-- AdriftServer.sendHTTPResponseStart. -/
def sendHTTPResponseStart (seq : Nat) (p : HTTPResponsePayload) : List Nat :=
  sendJSONRes seq S2CRequestTypes.HTTPResponseStart (respPayloadToJSVal p)

/-- AdriftServer.sendHTTPResponseChunk. -/
def sendHTTPResponseChunk (seq : Nat) (chunk : List Nat) : List Nat :=
  encodeFrame seq S2CRequestTypes.HTTPResponseChunk chunk

/-- AdriftServer._sendSimpleRes: a bare 3-byte frame. -/
def sendSimpleRes (seq op : Nat) : List Nat := encodeFrame seq op []

/-- AdriftServer.sendHTTPResponseEnd. -/
def sendHTTPResponseEnd (seq : Nat) : List Nat :=
  sendSimpleRes seq S2CRequestTypes.HTTPResponseEnd

/-- AdriftServer.sendWSOpen (the acknowledgement frame). -/
def sendWSOpen (seq : Nat) : List Nat := sendSimpleRes seq S2CRequestTypes.WSOpen

/-- The close event delivered by the external socket. -/
structure WSCloseEvt where
  code : Nat
  reason : String
  wasClean : Bool
  deriving Repr, DecidableEq

/-- AdriftServer.sendWSClose. -/
def sendWSClose (seq : Nat) (e : WSCloseEvt) : List Nat :=
  sendJSONRes seq S2CRequestTypes.WSClose
    (.obj [("code", .num (.ofNat e.code)), ("reason", .str e.reason),
           ("wasClean", .bool e.wasClean)])

/-- AdriftServer.sendWSText. -/
def sendWSText (seq : Nat) (textEncoded : List Nat) : List Nat :=
  encodeFrame seq S2CRequestTypes.WSDataText textEncoded

/-- AdriftServer.sendWSBinary. -/
def sendWSBinary (seq : Nat) (data : List Nat) : List Nat :=
  encodeFrame seq S2CRequestTypes.WSDataBinary data

/-! ## The message handler -/

/-- The observable effects of one `onMsg` invocation: the new server
state, the frames pushed through `send` in order (sends take effect as
they happen, so they are kept even when the handler later throws), the
calls made into external WebSocket objects, and the exception — if any —
that escaped the async method as a promise rejection. -/
structure MsgEffects where
  state : ServerState
  frames : List (List Nat)
  cmds : List SockCmd
  err : Option JSError

/-- ToNumber of a primitive string, for the strings reachable at
server.ts:233 (output of `JSON.stringify`, which emits no surrounding
whitespace, no hex or `Infinity` literals, and only canonical JSON
numbers): a string that is entirely one JSON number denotes that number,
the empty string denotes 0, and every other string is NaN (`none`). -/
def stringToNumber (s : String) : Option JSNum :=
  if s.data = [] then some ⟨false, 0, 0, 0, 0⟩
  else
    match parseNumber s.data with
    | some (x, []) => some x
    | _ => none

/-- Truncation toward zero of the magnitude of a number given by its
components (natural division discards the fraction). -/
def JSNum.truncAbs (x : JSNum) : Nat :=
  let digits := x.ip * 10 ^ x.fl + x.fv
  if 0 ≤ x.ex then digits * 10 ^ x.ex.toNat / 10 ^ x.fl
  else digits / 10 ^ (x.fl + (-x.ex).toNat)

/-- ToIndex applied to a primitive string, as the TypedArray length
overload does: ToNumber (NaN and -0 give +0), truncate toward zero, and
throw a RangeError outside [0, 2^53). -/
def toIndexOfString (s : String) : Except JSError Nat :=
  match stringToNumber s with
  | none => .ok 0
  | some x =>
    let t := x.truncAbs
    if x.neg ∧ t ≠ 0 then .error ⟨.rangeError, "Invalid typed array length"⟩
    else if 2 ^ 53 ≤ t then .error ⟨.rangeError, "Invalid typed array length"⟩
    else .ok t

/-- `new Uint8Array(chunk)` at server.ts:233.  A Buffer is an Object, so
the constructor takes the typed-array path and copies its byte values.  A
primitive string is NOT an Object: the constructor takes it as a length
argument via ToIndex — an empty array for non-numeric text (ToNumber is
NaN), a zero-filled array for a numeric string, and a RangeError throw for
a negative (or 2^53 and larger) numeric string. -/
def newUint8Array : BodyChunk → Except JSError (List Nat)
  | .bytes bs => .ok bs
  | .str s =>
    match toIndexOfString s with
    | .ok n => .ok (List.replicate n 0)
    | .error e => .error e

/-- The body loop `for await (const chunk of body)` with
`sendHTTPResponseChunk(seq, new Uint8Array(chunk))`: emit converted chunks
in order; a conversion throw ends the loop, keeping the frames already
sent, and escapes. -/
def emitChunks (seq : Nat) : List BodyChunk → List (List Nat) × Option JSError
  | [] => ([], none)
  | c :: cs =>
    match newUint8Array c with
    | .ok bs =>
      let r := emitChunks seq cs
      (sendHTTPResponseChunk seq bs :: r.1, r.2)
    | .error e => ([], some e)

/-- Optional string as a JS value (`undefined` when absent). -/
def optStr : Option String → JSVal
  | some s => .str s
  | none => .undefined

/-- The catch block of the HTTPRequest branch of `onMsg`: keep a
`BareError`, wrap any other throw into a 500 `BareError` whose body
carries code, id, message and (possibly `undefined`, then omitted by
serialization) stack. -/
def thrownToBareError : ThrownVal → BareError
  | .bare e => e
  | .err n m s =>
    ⟨500, .obj [("code", .str "UNKNOWN"), ("id", .str ("error." ++ n)),
                ("message", .str m), ("stack", optStr s)]⟩
  | .other sv fs =>
    ⟨500, .obj [("code", .str "UNKNOWN"), ("id", .str "error.Exception"),
                ("message", .str ("Error: " ++ sv)), ("stack", optStr fs)]⟩

/-- The `try`/`catch` around the `handleHTTPRequest` call in `onMsg`: a
resolved response is used as is, a throw is converted by the catch block
into a synthesized `BareError` response.  Returns the state left by the
handler together with the response about to be streamed. -/
def exchangeResponse (outcome : FetchOutcome) (st : ServerState) :
    ServerState × HTTPResponse :=
  match handleHTTPRequest outcome st with
  | (st1, .ok r) => (st1, r)
  | (st1, .error t) => (st1, bareErrorToResponse (thrownToBareError t))

/-- The `C2SRequestTypes.HTTPRequest` case of `onMsg`: parse the JSON
payload (a falsy result aborts silently), run `handleHTTPRequest` with a
catch-all converting any throw into a synthesized response, then emit the
start frame, one chunk frame per body chunk, and the end frame.  When a
chunk's Uint8Array conversion throws, the frames already sent stand, the
end frame is never sent, and the exception escapes. -/
def httpRequestBranch (outcome : FetchOutcome) (st : ServerState)
    (seq : Nat) (rest : List Nat) : MsgEffects :=
  match tryParseJSONPayload rest with
  | .error e => ⟨st, [], [], some e⟩
  | .ok reqPayload =>
    if jsTruthy (reqPayload.getD .undefined) = false then ⟨st, [], [], none⟩
    else
      match emitChunks seq (exchangeResponse outcome st).2.body with
      | (fs, none) =>
        ⟨(exchangeResponse outcome st).1,
          sendHTTPResponseStart seq (exchangeResponse outcome st).2.payload ::
            (fs ++ [sendHTTPResponseEnd seq]),
          [], none⟩
      | (fs, some e) =>
        ⟨(exchangeResponse outcome st).1,
          sendHTTPResponseStart seq (exchangeResponse outcome st).2.payload ::
            fs,
          [], some e⟩

/-- The `C2SRequestTypes.WSOpen` case of `onMsg`: parse the JSON payload
and read `payload.url` with no undefined-check (a failed parse therefore
raises a `TypeError` before the constructor call and the registry
assignment), construct the external socket, and register it in the
registry under `seq` while its handler closures capture `seq`. -/
def wsOpenBranch (st : ServerState) (seq : Nat) (rest : List Nat) :
    MsgEffects :=
  match tryParseJSONPayload rest with
  | .error e => ⟨st, [], [], some e⟩
  | .ok payload =>
    match jsGet (payload.getD .undefined) "url" with
    | .error e => ⟨st, [], [], some e⟩
    | .ok url =>
      let sid := st.nextSocket
      ⟨{ st with
          sockets := aset st.sockets seq sid,
          wsHandlers := aset st.wsHandlers sid seq,
          nextSocket := sid + 1 },
        [], [.connect sid url], none⟩

/-- The `C2SRequestTypes.WSSendText` case of `onMsg`: unknown sequence ids
are dropped, otherwise the payload is UTF-8-decoded and sent as text. -/
def wsSendTextBranch (st : ServerState) (seq : Nat) (rest : List Nat) :
    MsgEffects :=
  match alookup st.sockets seq with
  | none => ⟨st, [], [], none⟩
  | some sid => ⟨st, [], [.sendText sid (textDecode rest)], none⟩

/-- The `C2SRequestTypes.WSSendBinary` case of `onMsg`. -/
def wsSendBinaryBranch (st : ServerState) (seq : Nat) (rest : List Nat) :
    MsgEffects :=
  match alookup st.sockets seq with
  | none => ⟨st, [], [], none⟩
  | some sid => ⟨st, [], [.sendBinary sid rest], none⟩

/-- The `C2SRequestTypes.WSClose` case of `onMsg`. -/
def wsCloseBranch (st : ServerState) (seq : Nat) : MsgEffects :=
  match alookup st.sockets seq with
  | none => ⟨st, [], [], none⟩
  | some sid => ⟨st, [], [.close sid], none⟩

/-- AdriftServer.onMsg: decode the header (dropping malformed messages)
and dispatch on the operation code; unrecognized codes are a no-op. -/
def onMsg (outcome : FetchOutcome) (st : ServerState) (msg : List Nat) :
    MsgEffects :=
  match parseMsgInit msg with
  | .error e => ⟨st, [], [], some e⟩
  | .ok none => ⟨st, [], [], none⟩
  | .ok (some init) =>
    let seq := init.seq
    let rest := msg.drop init.cursor
    if init.op = C2SRequestTypes.HTTPRequest then
      httpRequestBranch outcome st seq rest
    else if init.op = C2SRequestTypes.WSOpen then wsOpenBranch st seq rest
    else if init.op = C2SRequestTypes.WSSendText then
      wsSendTextBranch st seq rest
    else if init.op = C2SRequestTypes.WSSendBinary then
      wsSendBinaryBranch st seq rest
    else if init.op = C2SRequestTypes.WSClose then wsCloseBranch st seq
    else ⟨st, [], [], none⟩

/-! ## External socket events

The closures installed in the `WSOpen` branch capture only `seq`; firing
an event on socket `sid` dispatches through `wsHandlers`, which records
exactly that capture. -/

/-- The socket's `open` event: emit the `WSOpen` acknowledgement on the
captured sequence id.  The state is untouched. -/
def fireWSOpen (st : ServerState) (sid : Nat) : ServerState × List (List Nat) :=
  match alookup st.wsHandlers sid with
  | some seq => (st, [sendWSOpen seq])
  | none => (st, [])

/-- The socket's `close` event: emit a `WSClose` frame carrying code,
reason and wasClean on the captured sequence id.  The state — in
particular the registry entry — is untouched. -/
def fireWSClose (st : ServerState) (sid : Nat) (e : WSCloseEvt) :
    ServerState × List (List Nat) :=
  match alookup st.wsHandlers sid with
  | some seq => (st, [sendWSClose seq e])
  | none => (st, [])

/-- Shapes of an incoming socket message event across the two supported
websocket libraries. -/
inductive WSMsgEvent where
  | nodeBuf (data : List Nat) (isBinary : Bool)
  | webText (s : String)
  | webBinary (data : List Nat)
  | unrecognized

/-- The socket's `message` event: normalize both library shapes to a
text/binary decision; an unrecognized shape throws. -/
def fireWSMessage (st : ServerState) (sid : Nat) (ev : WSMsgEvent) :
    Except JSError (ServerState × List (List Nat)) :=
  match alookup st.wsHandlers sid with
  | none => .ok (st, [])
  | some seq =>
    match ev with
    | .nodeBuf data isBinary =>
      if isBinary then .ok (st, [sendWSBinary seq data])
      else .ok (st, [sendWSText seq data])
    | .webText s => .ok (st, [sendWSText seq (utf8Encode s)])
    | .webBinary data => .ok (st, [sendWSBinary seq data])
    | .unrecognized => .error ⟨.generic, "Unexpected message type received"⟩

/-- AdriftServer.onClose fires the `close` event: every registered hook
aborts its in-flight fetch and removes itself, leaving no listeners; the
socket registry is untouched. -/
def onChannelClose (st : ServerState) : ServerState :=
  { st with closeListeners := [] }

/-! ## Concrete example data used by witnesses and counterexamples -/

/-- An HTTPRequest frame (sequence 1) whose JSON payload is the empty
object. -/
def exHTTPMsg : List Nat :=
  encodeFrame 1 C2SRequestTypes.HTTPRequest (utf8Encode "\x7b\x7d")

/-- A controlled fetch failure with status 403 and a structured JSON
body. -/
def exBare403 : BareError := ⟨403, .obj [("code", .str "FORBIDDEN")]⟩

/-- A WSOpen frame (sequence 7) whose JSON payload carries a target
url. -/
def exWSOpenMsg : List Nat :=
  encodeFrame 7 C2SRequestTypes.WSOpen (utf8Encode "\x7b\"url\":\"ws://x\"\x7d")

/-! ## Helper lemmas -/

theorem alookup_aset {α : Type} (l : List (Nat × α)) (k key : Nat) (v : α) :
    alookup (aset l key v) k = if k = key then some v else alookup l k := by
  induction l with
  | nil =>
    by_cases h : k = key
    · subst h; simp [aset, alookup]
    · simp [aset, alookup, h, Ne.symm h]
  | cons hd tl ih =>
    obtain ⟨k0, v0⟩ := hd
    by_cases h0 : k0 = key
    · subst h0
      by_cases h : k = k0
      · simp [aset, alookup, h]
      · simp [aset, alookup, h, Ne.symm h]
    · by_cases h : k = k0
      · subst h
        simp [aset, alookup, h0, Ne.symm h0]
      · simp [aset, alookup, h0, h, Ne.symm h, ih]

theorem alookup_aset_isSome {α : Type} (l : List (Nat × α)) (s key : Nat)
    (v : α) (h : (alookup l s).isSome = true) :
    (alookup (aset l key v) s).isSome = true := by
  rw [alookup_aset]
  by_cases hs : s = key <;> simp [hs, h]

theorem parseMsgInit_short (msg : List Nat) (h : msg.length < 3) :
    parseMsgInit msg = .ok none := by
  unfold parseMsgInit dvGetUint16 dvGetUint8
  by_cases h2 : 0 + 2 ≤ msg.length
  · have h3 : ¬ (2 + 1 ≤ msg.length) := by omega
    simp [h2, h3]
  · simp [h2]

theorem handleHTTPRequest_sockets (outcome : FetchOutcome) (st : ServerState) :
    (handleHTTPRequest outcome st).1.sockets = st.sockets := by
  unfold handleHTTPRequest
  cases outcome with
  | success resp => rfl
  | failure t => cases t <;> rfl

theorem handleHTTPRequest_wsHandlers (outcome : FetchOutcome) (st : ServerState) :
    (handleHTTPRequest outcome st).1.wsHandlers = st.wsHandlers := by
  unfold handleHTTPRequest
  cases outcome with
  | success resp => rfl
  | failure t => cases t <;> rfl

theorem dvGetUint16_cons (a b : Nat) (l : List Nat) :
    dvGetUint16 (a :: b :: l) 0 = .ok (256 * (a % 256) + b % 256) := by
  unfold dvGetUint16
  have h : 0 + 2 ≤ (a :: b :: l).length := by
    simp [List.length_cons]
  rw [if_pos h]
  rfl

theorem dvGetUint8_cons3 (a b c : Nat) (l : List Nat) :
    dvGetUint8 (a :: b :: c :: l) 2 = .ok (c % 256) := by
  unfold dvGetUint8
  have h : 2 + 1 ≤ (a :: b :: c :: l).length := by
    simp [List.length_cons]
  rw [if_pos h]
  rfl

theorem parseMsgInit_cons (a b c : Nat) (l : List Nat) :
    parseMsgInit (a :: b :: c :: l) =
      .ok (some ⟨3, 256 * (a % 256) + b % 256, c % 256⟩) := by
  unfold parseMsgInit
  rw [dvGetUint16_cons, dvGetUint8_cons3]

theorem onMsg_http (outcome : FetchOutcome) (st : ServerState)
    (msg : List Nat) (seq : Nat)
    (hhdr : parseMsgInit msg = .ok (some ⟨3, seq, C2SRequestTypes.HTTPRequest⟩)) :
    onMsg outcome st msg = httpRequestBranch outcome st seq (msg.drop 3) := by
  unfold onMsg
  rw [hhdr]
  rfl

theorem onMsg_wsOpen (outcome : FetchOutcome) (st : ServerState)
    (msg : List Nat) (seq : Nat)
    (hhdr : parseMsgInit msg = .ok (some ⟨3, seq, C2SRequestTypes.WSOpen⟩)) :
    onMsg outcome st msg = wsOpenBranch st seq (msg.drop 3) := by
  unfold onMsg
  rw [hhdr]
  rfl

theorem stringToNumber_obj (fs : List (String × JSVal)) :
    stringToNumber (jsonStringify (JSVal.obj fs)) = none := by
  have hd : (jsonStringify (JSVal.obj fs)).data =
      '\x7b' :: ((commaJoin (stringifyFields fs)).data ++ "\x7d".data) := by
    show (("\x7b" ++ commaJoin (stringifyFields fs)) ++ "\x7d").data = _
    rw [String.data_append, String.data_append]
    rfl
  unfold stringToNumber
  rw [hd]
  rfl

theorem newUint8Array_str_nan (s : String) (h : stringToNumber s = none) :
    newUint8Array (.str s) = .ok [] := by
  show (match toIndexOfString s with
    | Except.ok n => Except.ok (List.replicate n 0)
    | Except.error e => Except.error e) = Except.ok []
  unfold toIndexOfString
  simp only [h]
  rfl

theorem newUint8Array_obj (fs : List (String × JSVal)) :
    newUint8Array (.str (jsonStringify (JSVal.obj fs))) = .ok [] :=
  newUint8Array_str_nan _ (stringToNumber_obj fs)

theorem emitChunks_of_all_ok (seq : Nat) (body : List BodyChunk)
    (h : ∀ c ∈ body, (newUint8Array c).isOk = true) :
    ∃ chunks : List (List Nat),
      chunks.map Except.ok = body.map newUint8Array ∧
      emitChunks seq body = (chunks.map (sendHTTPResponseChunk seq), none) := by
  induction body with
  | nil => exact ⟨[], rfl, rfl⟩
  | cons c cs ih =>
    have hc := h c (List.mem_cons_self c cs)
    obtain ⟨chunks, hmap, hemit⟩ := ih (fun x hx => h x (List.mem_cons_of_mem c hx))
    cases hu : newUint8Array c with
    | error e => rw [hu] at hc; exact absurd hc (by simp [Except.isOk, Except.toBool])
    | ok bs =>
      refine ⟨bs :: chunks, ?_, ?_⟩
      · simp [hu, hmap]
      · simp [emitChunks, hu, hemit]

theorem exchangeResponse_body_ok (outcome : FetchOutcome) (st : ServerState)
    (hbody : ∀ e, outcome = .failure (.bare e) →
      (newUint8Array (.str (jsonStringify e.body))).isOk = true) :
    ∀ c ∈ (exchangeResponse outcome st).2.body, (newUint8Array c).isOk = true := by
  intro c hc
  cases outcome with
  | success resp =>
    simp only [exchangeResponse, handleHTTPRequest] at hc
    obtain ⟨bs, _, rfl⟩ := List.mem_map.mp hc
    rfl
  | failure t =>
    cases t with
    | bare e =>
      simp only [exchangeResponse, handleHTTPRequest, bareErrorToResponse,
        List.mem_singleton] at hc
      subst hc
      exact hbody e rfl
    | err n m s =>
      simp only [exchangeResponse, handleHTTPRequest, thrownToBareError,
        bareErrorToResponse, List.mem_singleton] at hc
      subst hc
      rw [newUint8Array_obj]
      rfl
    | other sv fstk =>
      simp only [exchangeResponse, handleHTTPRequest, thrownToBareError,
        bareErrorToResponse, List.mem_singleton] at hc
      subst hc
      rw [newUint8Array_obj]
      rfl

/-! ## The claims -/

/-- C5: for every sequence id (16-bit) and operation code (8-bit) and
every payload byte string, decoding the header of the encoded frame
yields back the same sequence id and operation code with payload offset 3,
and the bytes from that offset equal the original payload. -/
theorem frameHeaderRoundtrip (seq op : Nat) (payload : List Nat)
    (h1 : seq < 65536) (h2 : op < 256) :
    parseMsgInit (encodeFrame seq op payload) = .ok (some ⟨3, seq, op⟩) ∧
      (encodeFrame seq op payload).drop 3 = payload := by
  have he : encodeFrame seq op payload =
      seq / 256 % 256 :: seq % 256 :: op % 256 :: payload := by
    simp [encodeFrame, u16be]
  constructor
  · rw [he, parseMsgInit_cons]
    have e1 : 256 * (seq / 256 % 256 % 256) + seq % 256 % 256 = seq := by omega
    have e2 : op % 256 % 256 = op := by omega
    rw [e1, e2]
  · rw [he]
    rfl

/-- Witness for C5 at sequence 258, operation 7, payload [9]. -/
theorem frameHeaderRoundtrip_witness :
    parseMsgInit (encodeFrame 258 7 [9]) = .ok (some ⟨3, 258, 7⟩) ∧
      (encodeFrame 258 7 [9]).drop 3 = [9] :=
  frameHeaderRoundtrip 258 7 [9] (by decide) (by decide)

/-- C6: every input shorter than 3 bytes decodes to none without raising
an exception, and the message handler consequently drops the message:
no frames, no socket commands, and the state (in particular the registry)
unchanged. -/
theorem shortMessageDropped (outcome : FetchOutcome) (st : ServerState)
    (msg : List Nat) (h : msg.length < 3) :
    parseMsgInit msg = .ok none ∧ onMsg outcome st msg = ⟨st, [], [], none⟩ := by
  have hp := parseMsgInit_short msg h
  refine ⟨hp, ?_⟩
  unfold onMsg
  rw [hp]

/-- Witness for C6 at the 2-byte input [0, 1]. -/
theorem shortMessageDropped_witness :
    parseMsgInit [0, 1] = .ok none ∧
      onMsg (.failure (.other "" none)) initialState [0, 1] =
        ⟨initialState, [], [], none⟩ :=
  shortMessageDropped (.failure (.other "" none)) initialState [0, 1]
    (by decide)

/-- C7 (amended): for every payload byte string, JSON payload decoding
returns, without ever propagating an exception, exactly the result of
parsing the replacement-decoded text: a value when that text is valid
JSON, none otherwise.  Invalid UTF-8 alone does not force none. -/
theorem tryParseJSONPayloadTotal (raw : List Nat) :
    tryParseJSONPayload raw = .ok (jsonParse (textDecode raw)) := by
  unfold tryParseJSONPayload jsonParseE
  cases h : jsonParse (textDecode raw) <;> simp [h]

/-- Counterexample to C7 as stated: the byte string 0x22 0xFF 0x22 is not
valid UTF-8, yet decoding returns a parsed string value (the replacement
character), not none. -/
theorem invalidUtf8PayloadParses :
    validUtf8 [0x22, 0xFF, 0x22] = false ∧
      tryParseJSONPayload [0x22, 0xFF, 0x22] =
        .ok (some (.str (String.mk [fffd]))) :=
  ⟨rfl, rfl⟩

/-- C9: a WSSendText, WSSendBinary or WSClose frame whose sequence id has
no registered socket produces zero outbound frames, zero socket commands,
raises no fault, and leaves the state unchanged. -/
theorem unknownSequenceIgnored (outcome : FetchOutcome) (st : ServerState)
    (msg : List Nat) (seq op : Nat)
    (hhdr : parseMsgInit msg = .ok (some ⟨3, seq, op⟩))
    (hop : op = C2SRequestTypes.WSSendText ∨ op = C2SRequestTypes.WSSendBinary ∨
      op = C2SRequestTypes.WSClose)
    (hnone : alookup st.sockets seq = none) :
    onMsg outcome st msg = ⟨st, [], [], none⟩ := by
  unfold onMsg
  rw [hhdr]
  rcases hop with h | h | h <;> subst h <;>
    simp [C2SRequestTypes.HTTPRequest, C2SRequestTypes.WSOpen,
      C2SRequestTypes.WSSendText, C2SRequestTypes.WSSendBinary,
      C2SRequestTypes.WSClose, wsSendTextBranch, wsSendBinaryBranch,
      wsCloseBranch, hnone]

/-- Witness for C9: a WSSendText frame for the unregistered sequence 9. -/
theorem unknownSequenceIgnored_witness :
    onMsg (.failure (.other "" none)) initialState
      (encodeFrame 9 C2SRequestTypes.WSSendText (utf8Encode "hi")) =
      ⟨initialState, [], [], none⟩ :=
  unknownSequenceIgnored (.failure (.other "" none)) initialState
    (encodeFrame 9 C2SRequestTypes.WSSendText (utf8Encode "hi")) 9
    C2SRequestTypes.WSSendText (by rfl) (Or.inl rfl) rfl

/-- C1 (amended): for every HTTPRequest frame whose payload decodes as
JSON to a truthy value, the frames emitted on that frame's sequence id are
exactly one HTTPResponseStart, followed by zero or more HTTPResponseChunk
frames in the order of the response body chunks, followed by exactly one
HTTPResponseEnd, with no escaping exception, for every outcome of the
fetch collaborator — success, any uncontrolled throw, and every controlled
failure whose serialized error body is a valid Uint8Array length argument
(in particular every structured, non-numeric body).  The chunk payloads
are exactly the Uint8Array conversions of the body chunks, in body
order. -/
theorem httpExchangeFrameShape (outcome : FetchOutcome) (st : ServerState)
    (msg : List Nat) (seq : Nat) (v : JSVal)
    (hhdr : parseMsgInit msg = .ok (some ⟨3, seq, C2SRequestTypes.HTTPRequest⟩))
    (hpl : tryParseJSONPayload (msg.drop 3) = .ok (some v))
    (ht : jsTruthy v = true)
    (hbody : ∀ e, outcome = .failure (.bare e) →
      (newUint8Array (.str (jsonStringify e.body))).isOk = true) :
    ∃ (st2 : ServerState) (p : HTTPResponsePayload) (chunks : List (List Nat)),
      p = (exchangeResponse outcome st).2.payload ∧
      chunks.map Except.ok = (exchangeResponse outcome st).2.body.map newUint8Array ∧
      onMsg outcome st msg = ⟨st2,
        sendHTTPResponseStart seq p ::
          (chunks.map (sendHTTPResponseChunk seq) ++ [sendHTTPResponseEnd seq]),
        [], none⟩ := by
  rw [onMsg_http outcome st msg seq hhdr]
  unfold httpRequestBranch
  simp only [hpl]
  rw [if_neg (by simp [ht])]
  obtain ⟨chunks, hmap, hemit⟩ :=
    emitChunks_of_all_ok seq (exchangeResponse outcome st).2.body
      (exchangeResponse_body_ok outcome st hbody)
  refine ⟨(exchangeResponse outcome st).1, (exchangeResponse outcome st).2.payload,
    chunks, rfl, hmap, ?_⟩
  simp only [hemit]

/-- Witness for C1 at a success outcome with two body chunks. -/
theorem httpExchangeFrameShape_witness :
    ∃ (st2 : ServerState) (p : HTTPResponsePayload) (chunks : List (List Nat)),
      p = (exchangeResponse (.success ⟨some 200, some "OK", [], [[97], [98]]⟩)
            initialState).2.payload ∧
      chunks.map Except.ok =
        (exchangeResponse (.success ⟨some 200, some "OK", [], [[97], [98]]⟩)
            initialState).2.body.map newUint8Array ∧
      onMsg (.success ⟨some 200, some "OK", [], [[97], [98]]⟩) initialState
          exHTTPMsg =
        ⟨st2, sendHTTPResponseStart 1 p ::
          (chunks.map (sendHTTPResponseChunk 1) ++ [sendHTTPResponseEnd 1]),
          [], none⟩ :=
  httpExchangeFrameShape (.success ⟨some 200, some "OK", [], [[97], [98]]⟩)
    initialState exHTTPMsg 1 (.obj []) (by rfl) (by rfl) rfl
    (fun e he => FetchOutcome.noConfusion he)

/-- The path C1 must exclude, at a concrete input: a controlled failure
whose body is the bare number -1 serializes to a negative length, so the
relay emits the start frame and then the Uint8Array constructor throws a
RangeError — no chunk and no end frame are ever sent. -/
theorem bareNumericBodyCrashesAfterStart :
    (onMsg (.failure (.bare ⟨403, .num ⟨true, 1, 0, 0, 0⟩⟩)) initialState
        exHTTPMsg).frames.map (fun f => f.getD 2 256) =
      [S2CRequestTypes.HTTPResponseStart] ∧
      (onMsg (.failure (.bare ⟨403, .num ⟨true, 1, 0, 0, 0⟩⟩)) initialState
          exHTTPMsg).err =
        some ⟨.rangeError, "Invalid typed array length"⟩ :=
  ⟨rfl, rfl⟩

/-- Counterexample to C1 as stated: the payload consisting of the single
character 0 decodes as JSON (to the number 0), yet the message handler
emits no frames at all for it — falsy parse results are discarded by the
untyped `if (!reqPayload) return` guard before any frame is sent. -/
theorem falsyJSONPayloadDropped :
    tryParseJSONPayload (utf8Encode "0") =
        .ok (some (.num ⟨false, 0, 0, 0, 0⟩)) ∧
      onMsg (.success ⟨some 200, some "OK", [], [[97]]⟩) initialState
          (encodeFrame 1 C2SRequestTypes.HTTPRequest (utf8Encode "0")) =
        ⟨initialState, [], [], none⟩ :=
  ⟨rfl, rfl⟩

/-- C2 (amended): when the fetch collaborator fails with a controlled
BareError carrying a structured (non-numeric) body, the relay emits an
HTTPResponseStart carrying that error's status, then exactly one
HTTPResponseChunk whose payload is EMPTY — `new Uint8Array` takes the
primitive JSON string as a ToIndex length argument and its ToNumber is
NaN, so the serialized error body is lost — then HTTPResponseEnd, with no
escaping exception. -/
theorem bareFailureResponseFrames (st : ServerState) (msg : List Nat)
    (seq : Nat) (v : JSVal) (e : BareError)
    (hhdr : parseMsgInit msg = .ok (some ⟨3, seq, C2SRequestTypes.HTTPRequest⟩))
    (hpl : tryParseJSONPayload (msg.drop 3) = .ok (some v))
    (ht : jsTruthy v = true)
    (hnan : stringToNumber (jsonStringify e.body) = none) :
    ∃ st2, onMsg (.failure (.bare e)) st msg = ⟨st2,
        [sendHTTPResponseStart seq (bareErrorToResponse e).payload,
         sendHTTPResponseChunk seq [],
         sendHTTPResponseEnd seq], [], none⟩ ∧
      (bareErrorToResponse e).payload.status = e.status := by
  rw [onMsg_http (.failure (.bare e)) st msg seq hhdr]
  unfold httpRequestBranch
  simp only [hpl]
  rw [if_neg (by simp [ht])]
  have hu : newUint8Array (.str (jsonStringify e.body)) = .ok [] :=
    newUint8Array_str_nan _ hnan
  have hemit : emitChunks seq (exchangeResponse (.failure (.bare e)) st).2.body =
      ([sendHTTPResponseChunk seq []], none) := by
    have hb : (exchangeResponse (.failure (.bare e)) st).2.body =
        [.str (jsonStringify e.body)] := by
      simp [exchangeResponse, handleHTTPRequest, bareErrorToResponse]
    rw [hb]
    simp [emitChunks, hu]
  refine ⟨(exchangeResponse (.failure (.bare e)) st).1, ?_, rfl⟩
  simp only [hemit]
  have hp : (exchangeResponse (.failure (.bare e)) st).2.payload =
      (bareErrorToResponse e).payload := by
    simp [exchangeResponse, handleHTTPRequest]
  rw [hp]
  rfl

/-- Witness for C2 at the 403 controlled failure. -/
theorem bareFailureResponseFrames_witness :
    ∃ st2, onMsg (.failure (.bare exBare403)) initialState exHTTPMsg =
        ⟨st2,
          [sendHTTPResponseStart 1 (bareErrorToResponse exBare403).payload,
           sendHTTPResponseChunk 1 [],
           sendHTTPResponseEnd 1], [], none⟩ ∧
      (bareErrorToResponse exBare403).payload.status = exBare403.status :=
  bareFailureResponseFrames initialState exHTTPMsg 1 (.obj []) exBare403
    (by rfl) (by rfl) rfl (by rfl)

/-- Counterexample to C2 as stated: on the controlled 403 failure the
emitted frames have operation bytes Start, Chunk, End — an
HTTPResponseChunk frame is present, because the synthesized body
(`Readable.from` of the serialized error body) yields one (empty after
the length coercion) chunk — and the exchange completes normally. -/
theorem bareFailureEmitsChunkFrame :
    ((onMsg (.failure (.bare exBare403)) initialState exHTTPMsg).frames.map
        (fun f => f.getD 2 256)) =
      [S2CRequestTypes.HTTPResponseStart, S2CRequestTypes.HTTPResponseChunk,
        S2CRequestTypes.HTTPResponseEnd] ∧
      (onMsg (.failure (.bare exBare403)) initialState exHTTPMsg).err = none :=
  ⟨rfl, rfl⟩

/-- C3 (the code violates it): the cancellation hook is not deregistered
on a controlled failure — starting from a server with no registered close
listeners, an HTTPRequest exchange whose fetch step throws a BareError
completes (status frames and all) with one close listener left
registered, because the early return in the catch of `handleHTTPRequest`
skips `events.off`. -/
theorem bareFailureLeaksCloseListener :
    (onMsg (.failure (.bare exBare403)) initialState exHTTPMsg).state.closeListeners
        = [0] ∧
      (onMsg (.failure (.bare exBare403)) initialState exHTTPMsg).err = none ∧
      initialState.closeListeners = [] :=
  ⟨rfl, rfl, rfl⟩

/-- C4 (the code violates it): a WSOpen frame whose payload fails to
decode as JSON does not abort silently — reading `.url` of the undefined
parse result raises a TypeError that escapes the message handler as an
async rejection.  The payload here is a lone opening brace. -/
theorem wsOpenBadPayloadThrows :
    tryParseJSONPayload (utf8Encode "\x7b") = .ok none ∧
      onMsg (.failure (.other "" none)) initialState
          (encodeFrame 7 C2SRequestTypes.WSOpen (utf8Encode "\x7b")) =
        ⟨initialState, [], [],
          some ⟨.typeError, "Cannot read properties of undefined"⟩⟩ :=
  ⟨rfl, rfl⟩

theorem fireWSClose_state (st : ServerState) (sid : Nat) (e : WSCloseEvt) :
    (fireWSClose st sid e).1 = st := by
  unfold fireWSClose
  cases alookup st.wsHandlers sid <;> rfl

theorem fireWSOpen_state (st : ServerState) (sid : Nat) :
    (fireWSOpen st sid).1 = st := by
  unfold fireWSOpen
  cases alookup st.wsHandlers sid <;> rfl

theorem fireWSMessage_state (st : ServerState) (sid : Nat) (ev : WSMsgEvent)
    (r : ServerState × List (List Nat)) (h : fireWSMessage st sid ev = .ok r) :
    r.1 = st := by
  unfold fireWSMessage at h
  cases halo : alookup st.wsHandlers sid with
  | none => rw [halo] at h; injection h with h2; rw [← h2]
  | some seq =>
    rw [halo] at h
    cases ev with
    | nodeBuf data isBinary =>
      cases isBinary <;> simp only [if_pos, if_neg, Bool.false_eq_true,
        reduceIte] at h <;> (injection h with h2; rw [← h2])
    | webText s => injection h with h2; rw [← h2]
    | webBinary data => injection h with h2; rw [← h2]
    | unrecognized => exact Except.noConfusion h

theorem exchangeResponse_fst (outcome : FetchOutcome) (st : ServerState) :
    (exchangeResponse outcome st).1 = (handleHTTPRequest outcome st).1 := by
  unfold exchangeResponse
  cases h : handleHTTPRequest outcome st with
  | mk st1 res => cases res <;> rfl

theorem httpRequestBranch_sockets (outcome : FetchOutcome) (st : ServerState)
    (seq : Nat) (rest : List Nat) :
    (httpRequestBranch outcome st seq rest).state.sockets = st.sockets := by
  unfold httpRequestBranch
  cases hq : tryParseJSONPayload rest with
  | error e => simp only [hq]
  | ok o =>
    simp only [hq]
    by_cases hc : jsTruthy (o.getD .undefined) = false
    · rw [if_pos hc]
    · rw [if_neg hc]
      cases he : emitChunks seq (exchangeResponse outcome st).2.body with
      | mk fs oe =>
        cases oe <;> simp only [he] <;>
          rw [exchangeResponse_fst, handleHTTPRequest_sockets]

theorem wsOpenBranch_sockets_isSome (st : ServerState) (seq : Nat)
    (rest : List Nat) (s : Nat) (hs : (alookup st.sockets s).isSome = true) :
    (alookup (wsOpenBranch st seq rest).state.sockets s).isSome = true := by
  unfold wsOpenBranch
  cases hq : tryParseJSONPayload rest with
  | error e => simp only [hq]; exact hs
  | ok o =>
    simp only [hq]
    cases hg : jsGet (o.getD .undefined) "url" with
    | error e => simp only [hg]; exact hs
    | ok url =>
      simp only [hg]
      exact alookup_aset_isSome _ _ _ _ hs

theorem wsSendTextBranch_state (st : ServerState) (seq : Nat)
    (rest : List Nat) : (wsSendTextBranch st seq rest).state = st := by
  unfold wsSendTextBranch
  cases alookup st.sockets seq <;> rfl

theorem wsSendBinaryBranch_state (st : ServerState) (seq : Nat)
    (rest : List Nat) : (wsSendBinaryBranch st seq rest).state = st := by
  unfold wsSendBinaryBranch
  cases alookup st.sockets seq <;> rfl

theorem wsCloseBranch_state (st : ServerState) (seq : Nat) :
    (wsCloseBranch st seq).state = st := by
  unfold wsCloseBranch
  cases alookup st.sockets seq <;> rfl

theorem onMsg_preserves_sockets (outcome : FetchOutcome) (st : ServerState)
    (msg : List Nat) (s : Nat)
    (hs : (alookup st.sockets s).isSome = true) :
    (alookup (onMsg outcome st msg).state.sockets s).isSome = true := by
  unfold onMsg
  cases hp : parseMsgInit msg with
  | error e => simp only [hp]; exact hs
  | ok o =>
    cases o with
    | none => simp only [hp]; exact hs
    | some init =>
      simp only [hp]
      by_cases h0 : init.op = C2SRequestTypes.HTTPRequest
      · rw [if_pos h0, httpRequestBranch_sockets]
        exact hs
      · rw [if_neg h0]
        by_cases h1 : init.op = C2SRequestTypes.WSOpen
        · rw [if_pos h1]
          exact wsOpenBranch_sockets_isSome _ _ _ _ hs
        · rw [if_neg h1]
          by_cases h2 : init.op = C2SRequestTypes.WSSendText
          · rw [if_pos h2, wsSendTextBranch_state]
            exact hs
          · rw [if_neg h2]
            by_cases h3 : init.op = C2SRequestTypes.WSSendBinary
            · rw [if_pos h3, wsSendBinaryBranch_state]
              exact hs
            · rw [if_neg h3]
              by_cases h4 : init.op = C2SRequestTypes.WSClose
              · rw [if_pos h4, wsCloseBranch_state]
                exact hs
              · rw [if_neg h4]
                exact hs

/-- C8 (amended): a registry entry, once present, is never removed: the
socket's own close, open and message events leave the registry untouched,
channel close leaves it untouched, and the message handler only adds or
overwrites entries — so every registered sequence id stays registered
after any event. -/
theorem registryEntryNeverRemoved (st : ServerState) (s : Nat)
    (hs : (alookup st.sockets s).isSome = true) :
    (∀ sid e, (alookup (fireWSClose st sid e).1.sockets s).isSome = true) ∧
      (∀ sid, (alookup (fireWSOpen st sid).1.sockets s).isSome = true) ∧
      (∀ sid ev r, fireWSMessage st sid ev = .ok r →
        (alookup r.1.sockets s).isSome = true) ∧
      (alookup (onChannelClose st).sockets s).isSome = true ∧
      (∀ outcome msg,
        (alookup (onMsg outcome st msg).state.sockets s).isSome = true) := by
  refine ⟨?_, ?_, ?_, hs, ?_⟩
  · intro sid e
    rw [fireWSClose_state]
    exact hs
  · intro sid
    rw [fireWSOpen_state]
    exact hs
  · intro sid ev r h
    rw [fireWSMessage_state _ _ _ _ h]
    exact hs
  · intro outcome msg
    exact onMsg_preserves_sockets outcome st msg s hs

/-- Witness for C8 applied to a one-socket server: after channel close
the entry for sequence 7 is still registered. -/
theorem registryEntryNeverRemoved_witness :
    (alookup (onChannelClose ⟨[(7, 0)], [(0, 7)], [], 0, 1⟩).sockets 7).isSome =
      true :=
  (registryEntryNeverRemoved ⟨[(7, 0)], [(0, 7)], [], 0, 1⟩ 7 (by decide)).2.2.2.1

/-- Counterexample to C8 as stated: after a WSOpen exchange registers
socket 0 under sequence 7, firing that socket's close event emits the
WSClose frame yet leaves the registry entry in place — the entry is not
removed when the underlying socket closes. -/
theorem registryEntryPersistsAfterSocketClose :
    ∃ (st2 : ServerState) (u : JSVal),
      onMsg (.failure (.other "" none)) initialState exWSOpenMsg =
          ⟨st2, [], [.connect 0 u], none⟩ ∧
        (fireWSClose st2 0 ⟨1000, "", true⟩).1.sockets = [(7, 0)] ∧
        (fireWSClose st2 0 ⟨1000, "", true⟩).2.length = 1 ∧
        alookup st2.sockets 7 = some 0 :=
  ⟨⟨[(7, 0)], [(0, 7)], [], 0, 1⟩, .str "ws://x", rfl, rfl, rfl, rfl⟩

/-- C10: a WSOpen frame for a sequence id that already has a registered
socket unconditionally overwrites the registry entry with the newly
constructed socket; the previous socket receives no close call (the only
socket command issued is the connect of the new socket), remains wired to
its event handlers, and its close and open events still emit frames on
that same sequence id. -/
theorem wsOpenOverwritesRegistration (outcome : FetchOutcome)
    (st : ServerState) (msg : List Nat) (seq : Nat) (v : JSVal)
    (oldSid : Nat) (evt : WSCloseEvt)
    (hhdr : parseMsgInit msg = .ok (some ⟨3, seq, C2SRequestTypes.WSOpen⟩))
    (hpl : tryParseJSONPayload (msg.drop 3) = .ok (some v))
    (hnn : v ≠ .null) (hnu : v ≠ .undefined)
    (hold : alookup st.sockets seq = some oldSid)
    (hfresh : oldSid < st.nextSocket)
    (hcap : alookup st.wsHandlers oldSid = some seq) :
    ∃ (st2 : ServerState) (url : JSVal),
      onMsg outcome st msg = ⟨st2, [], [.connect st.nextSocket url], none⟩ ∧
        alookup st2.sockets seq = some st.nextSocket ∧
        oldSid ≠ st.nextSocket ∧
        alookup st2.wsHandlers oldSid = some seq ∧
        fireWSClose st2 oldSid evt = (st2, [sendWSClose seq evt]) ∧
        fireWSOpen st2 oldSid = (st2, [sendWSOpen seq]) := by
  rw [onMsg_wsOpen outcome st msg seq hhdr]
  unfold wsOpenBranch
  simp only [hpl]
  have hurl : ∃ url, jsGet ((some v).getD .undefined) "url" = .ok url := by
    cases v with
    | null => exact absurd rfl hnn
    | undefined => exact absurd rfl hnu
    | bool b => exact ⟨_, rfl⟩
    | num n => exact ⟨_, rfl⟩
    | str s => exact ⟨_, rfl⟩
    | arr xs => exact ⟨_, rfl⟩
    | obj fs => exact ⟨_, rfl⟩
  obtain ⟨url, hu⟩ := hurl
  simp only [hu]
  refine ⟨_, url, rfl, ?_, ?_, ?_, ?_, ?_⟩
  · show alookup (aset st.sockets seq st.nextSocket) seq = some st.nextSocket
    rw [alookup_aset, if_pos rfl]
  · omega
  · show alookup (aset st.wsHandlers st.nextSocket seq) oldSid = some seq
    rw [alookup_aset, if_neg (by omega)]
    exact hcap
  · unfold fireWSClose
    show (match alookup (aset st.wsHandlers st.nextSocket seq) oldSid with
      | some sq => (_, [sendWSClose sq evt])
      | none => (_, [])) = _
    rw [alookup_aset, if_neg (by omega), hcap]
  · unfold fireWSOpen
    show (match alookup (aset st.wsHandlers st.nextSocket seq) oldSid with
      | some sq => (_, [sendWSOpen sq])
      | none => (_, [])) = _
    rw [alookup_aset, if_neg (by omega), hcap]

/-- Witness for C10: reopening sequence 7 on a server that already has
socket 0 registered there. -/
theorem wsOpenOverwritesRegistration_witness :
    ∃ (st2 : ServerState) (url : JSVal),
      onMsg (.failure (.other "" none)) ⟨[(7, 0)], [(0, 7)], [], 0, 1⟩
          exWSOpenMsg = ⟨st2, [], [.connect 1 url], none⟩ ∧
        alookup st2.sockets 7 = some 1 ∧
        0 ≠ 1 ∧
        alookup st2.wsHandlers 0 = some 7 ∧
        fireWSClose st2 0 ⟨1000, "", true⟩ = (st2, [sendWSClose 7 ⟨1000, "", true⟩]) ∧
        fireWSOpen st2 0 = (st2, [sendWSOpen 7]) :=
  wsOpenOverwritesRegistration (.failure (.other "" none))
    ⟨[(7, 0)], [(0, 7)], [], 0, 1⟩ exWSOpenMsg 7
    (.obj [("url", .str "ws://x")]) 0 ⟨1000, "", true⟩ (by rfl) (by rfl)
    (fun h => JSVal.noConfusion h) (fun h => JSVal.noConfusion h) rfl
    (by decide) rfl

end Adrift
